import Mathlib

/-!
Verification development for the betsmart_aiv2 odds pipeline.

The Python source (src/betsmart_aiv2.py) is shallowly embedded below:
UTC instants are seconds since the Unix epoch (`Nat`), the host machine's
local timezone is an explicit UTC offset in seconds (`Int`), Python
dictionaries with a fixed shape become structures with `Option` fields
(a `none` field models an absent key), and Python exceptions become
`Except String` errors carrying the exception's description.
-/

namespace Betsmart

/-- Embeds `datetime(year, month, day, hour, 0, 0)` restricted to what the
source uses: the date is kept as a day count since the epoch and the result
is the corresponding epoch second.  Python's constructor raises `ValueError`
whenever `hour` is outside `0..23`. -/
def datetimeAtHour (day : Nat) (hour : Nat) : Except String Nat :=
  if hour ≤ 23 then Except.ok (day * 86400 + hour * 3600)
  else Except.error "ValueError: hour must be in 0..23"

/-- Embeds `get_api_reset_time` (lines 16-22).  `now` is the current UTC
instant in epoch seconds; `now.hour = now % 86400 / 3600`,
`reset_hour = (now.hour // 8 + 1) * 8`, and the guarded `+8h` branch is the
source's `if reset_time < now`.  An exception from the `datetime`
constructor propagates (the source has no try/except). -/
def get_api_reset_time (now : Nat) : Except String Nat :=
  let hour := now % 86400 / 3600
  let reset_hour := (hour / 8 + 1) * 8
  match datetimeAtHour (now / 86400) reset_hour with
  | Except.error e => Except.error e
  | Except.ok reset_time =>
    if reset_time < now then Except.ok (reset_time + 8 * 3600)
    else Except.ok reset_time

/-- Embeds `get_remaining_time` (lines 24-25):
`(get_api_reset_time() - datetime.utcnow()).total_seconds()`.
Because `get_api_reset_time` is cached (`st.cache_data(ttl=600)`), the reset
instant it returns may have been computed at an earlier instant than the
subtraction's `utcnow()`: `cached_now` is the instant at which the cached
reset value was computed (equal to `now` on a cold cache, and at most 600
seconds before `now` while the cache entry is valid). -/
def get_remaining_time (cached_now : Nat) (now : Nat) : Except String Int :=
  match get_api_reset_time cached_now with
  | Except.error e => Except.error e
  | Except.ok reset => Except.ok ((reset : Int) - (now : Int))

/-- One entry of a bet's `"values"` list: `value.get("value", "N/A")` is the
selection label and `value.get("odd", "N/A")` the quoted odd (the upstream
API serialises odds as strings). -/
structure ValueObj where
  value : Option String
  odd : Option String
deriving DecidableEq

/-- One market (`"bet"`) block: `bet.get("name", "Desconocido")` and
`bet.get("values", [])`. -/
structure BetObj where
  name : Option String
  values : Option (List ValueObj)
deriving DecidableEq

/-- One bookmaker block.  `name` models the `"name"` key: the source reads
it with `bookmaker["name"]` (a raw subscript, so an absent key raises
`KeyError`), and `bookmaker.get("bets", [])`. -/
structure BookmakerObj where
  name : Option String
  bets : Option (List BetObj)
deriving DecidableEq

/-- The `"fixture"` sub-dictionary; only `fixture.get("timestamp", 0)` is
read from it. -/
structure FixtureObj where
  timestamp : Option Int
deriving DecidableEq

/-- A dictionary holding only a `"name"` key, as read by
`.get("name", default)` for leagues and teams. -/
structure NameObj where
  name : Option String
deriving DecidableEq

/-- The `"teams"` sub-dictionary with its `"home"` and `"away"` entries. -/
structure TeamsObj where
  home : Option NameObj
  away : Option NameObj
deriving DecidableEq

/-- One raw odds record (`game` in the source): `game.get("fixture")` (no
default, hence `Option` with no substitute), `game.get("league", {})`,
`game.get("teams", {})` and `game.get("bookmakers", [])`. -/
structure GameObj where
  fixture : Option FixtureObj
  league : Option NameObj
  teams : Option TeamsObj
  bookmakers : Option (List BookmakerObj)
deriving DecidableEq

/-- One output row of `analyze_odds` with its eight named columns (the
source appends one such dictionary per accepted selection). -/
structure Row where
  Liga : String
  Local : String
  Visitante : String
  Hora : String
  Casa : String
  Mercado : String
  Seleccion : String
  Cuota : String
deriving DecidableEq

/-- Two-digit rendering of an hour or minute count, as `strftime` pads it. -/
def pad2 (n : Nat) : String :=
  if n < 10 then "0" ++ toString n else toString n

/-- Embeds `datetime.fromtimestamp(timestamp).strftime("%H:%M")` (line 62).
`fromtimestamp` converts epoch seconds to the host machine's local
wall-clock time; the host timezone is abstracted as the fixed UTC offset
`tz` in seconds, so the rendered hour and minute are those of
`timestamp + tz` within its day. -/
def fmtLocalHM (tz : Int) (timestamp : Int) : String :=
  let s := ((timestamp + tz).emod 86400).toNat
  pad2 (s / 3600) ++ ":" ++ pad2 (s % 3600 / 60)

/-- The line-72 filter of the source:
`market_name in ["Match Winner", "Draw No Bet"] or selection == "Draw"`. -/
def passes_filter (market_name : String) (selection : String) : Bool :=
  (["Match Winner", "Draw No Bet"] : List String).contains market_name ||
    selection == "Draw"

/-- `passes_filter` read off an output row's own columns (the row stores
exactly the `market_name` and `selection` that were filtered on). -/
def rowPass (r : Row) : Bool :=
  passes_filter r.Mercado r.Seleccion

/-- Sequences a row-producing step over a list, concatenating the produced
rows in order and propagating the first raised exception, exactly as a
Python `for` loop appending to `filtered_data` does. -/
def seqRows {α : Type} (f : α → Except String (List Row)) :
    List α → Except String (List Row)
  | [] => Except.ok []
  | x :: rest =>
    match f x with
    | Except.error e => Except.error e
    | Except.ok rs =>
      match seqRows f rest with
      | Except.error e => Except.error e
      | Except.ok rs2 => Except.ok (rs ++ rs2)

/-- The body of the innermost loop (lines 67-82) for one `value` entry:
default the selection and odd, test the filter, and only when the filter
passes build the row — at which point `bookmaker["name"]` is evaluated and
raises `KeyError` if the bookmaker block has no name. -/
def valueRow (bmName : Option String)
    (league home_team away_team match_time market_name : String)
    (v : ValueObj) : Except String (List Row) :=
  if passes_filter market_name (v.value.getD "N/A") then
    match bmName with
    | none => Except.error "KeyError: name"
    | some bn =>
      Except.ok [⟨league, home_team, away_team, match_time, bn,
        market_name, v.value.getD "N/A", v.odd.getD "N/A"⟩]
  else Except.ok []

/-- Lines 65-67: one market block — default its name, loop its values. -/
def betRows (bmName : Option String)
    (league home_team away_team match_time : String) (bet : BetObj) :
    Except String (List Row) :=
  seqRows
    (valueRow bmName league home_team away_team match_time
      (bet.name.getD "Desconocido"))
    (bet.values.getD [])

/-- Lines 64-65: one bookmaker block — loop its bets. -/
def bookmakerRows (league home_team away_team match_time : String)
    (bmk : BookmakerObj) : Except String (List Row) :=
  seqRows (betRows bmk.name league home_team away_team match_time)
    (bmk.bets.getD [])

/-- Lines 56-82 for one `game` record: extract league and team names with
their placeholder defaults, then read `fixture.get("timestamp", 0)` — an
`AttributeError` if `game.get("fixture")` returned `None` — format the
kickoff time, and loop the bookmakers. -/
def gameRows (tz : Int) (game : GameObj) : Except String (List Row) :=
  match game.fixture with
  | none => Except.error "AttributeError: NoneType object has no attribute get"
  | some fx =>
    seqRows
      (bookmakerRows ((game.league.bind NameObj.name).getD "Desconocida")
        (((game.teams.bind TeamsObj.home).bind NameObj.name).getD "Desconocido")
        (((game.teams.bind TeamsObj.away).bind NameObj.name).getD "Desconocido")
        (fmtLocalHM tz (fx.timestamp.getD 0)))
      (game.bookmakers.getD [])

/-- Embeds `analyze_odds` (lines 54-84): the flat list of accepted rows in
input traversal order.  `tz` is the host machine's UTC offset used by
`fromtimestamp` (see `fmtLocalHM`); the returned `DataFrame` is modelled by
its row list. -/
def analyze_odds (tz : Int) (odds_data : List GameObj) :
    Except String (List Row) :=
  seqRows (gameRows tz) odds_data

/-- Modelled from the spec's traversal description (§4.3): the same
fixture → bookmaker → market → selection walk as `valueRow`, with the
line-72 filter removed, so every priced selection yields its candidate row.
Used only to state the filter/ordering characterization of `analyze_odds`;
like the source, reading the bookmaker's name can raise `KeyError`. -/
def valueRowAll (bmName : Option String)
    (league home_team away_team match_time market_name : String)
    (v : ValueObj) : Except String (List Row) :=
  match bmName with
  | none => Except.error "KeyError: name"
  | some bn =>
    Except.ok [⟨league, home_team, away_team, match_time, bn,
      market_name, v.value.getD "N/A", v.odd.getD "N/A"⟩]

/-- Unfiltered counterpart of `betRows`. -/
def betRowsAll (bmName : Option String)
    (league home_team away_team match_time : String) (bet : BetObj) :
    Except String (List Row) :=
  seqRows
    (valueRowAll bmName league home_team away_team match_time
      (bet.name.getD "Desconocido"))
    (bet.values.getD [])

/-- Unfiltered counterpart of `bookmakerRows`. -/
def bookmakerRowsAll (league home_team away_team match_time : String)
    (bmk : BookmakerObj) : Except String (List Row) :=
  seqRows (betRowsAll bmk.name league home_team away_team match_time)
    (bmk.bets.getD [])

/-- Unfiltered counterpart of `gameRows`. -/
def gameRowsAll (tz : Int) (game : GameObj) : Except String (List Row) :=
  match game.fixture with
  | none => Except.error "AttributeError: NoneType object has no attribute get"
  | some fx =>
    seqRows
      (bookmakerRowsAll ((game.league.bind NameObj.name).getD "Desconocida")
        (((game.teams.bind TeamsObj.home).bind NameObj.name).getD "Desconocido")
        (((game.teams.bind TeamsObj.away).bind NameObj.name).getD "Desconocido")
        (fmtLocalHM tz (fx.timestamp.getD 0)))
      (game.bookmakers.getD [])

/-- The full unfiltered traversal: every candidate row of the input, in
input traversal order. -/
def traversalRows (tz : Int) (odds_data : List GameObj) :
    Except String (List Row) :=
  seqRows (gameRowsAll tz) odds_data

/-- Outcome of one `requests.get` call as seen by the fetchers: either the
transport raised (a network failure), or an HTTP response arrived with a
status code and a parsed JSON body whose optional `"response"` field holds
the record list. -/
inductive FetchOutcome (α : Type) where
  | netError : FetchOutcome α
  | response (status : Nat) (body : Option (List α)) : FetchOutcome α

/-- Embeds `get_matches` (lines 29-38) as a function of the HTTP call's
outcome (the URL, date and auth header do not affect the claimed
behaviour).  A transport exception is not caught and propagates; a 200
response returns `data.get("response", [])`; any other status returns the
empty list. -/
def get_matches {α : Type} (result : FetchOutcome α) : Except String (List α) :=
  match result with
  | FetchOutcome.netError =>
    Except.error "requests.exceptions.ConnectionError"
  | FetchOutcome.response status body =>
    if status = 200 then Except.ok (body.getD []) else Except.ok []

/-- Embeds `get_odds` (lines 42-51); the code is identical to
`get_matches` apart from the endpoint. -/
def get_odds {α : Type} (result : FetchOutcome α) : Except String (List α) :=
  match result with
  | FetchOutcome.netError =>
    Except.error "requests.exceptions.ConnectionError"
  | FetchOutcome.response status body =>
    if status = 200 then Except.ok (body.getD []) else Except.ok []

/-- The concrete end-to-end payload of spec §8: one fixture of league
"Test League", home "A", away "B", kickoff at local 15:30 (epoch 55800
under a zero UTC offset), one bookmaker "BookX" with market
"Match Winner" and three priced selections. -/
def c6game : GameObj :=
  { fixture := some ⟨some 55800⟩,
    league := some ⟨some "Test League"⟩,
    teams := some ⟨some ⟨some "A"⟩, some ⟨some "B"⟩⟩,
    bookmakers := some [⟨some "BookX",
      some [⟨some "Match Winner",
        some [⟨some "Home", some "1.5"⟩, ⟨some "Draw", some "3.2"⟩,
          ⟨some "Away", some "2.1"⟩]⟩]⟩] }

/-- A bookmaker offering only an "Over/Under" market in which one selection
is literally labeled "Draw": exercises the selection-name half of the
filter's disjunction. -/
def ouGame : GameObj :=
  { fixture := some ⟨some 0⟩,
    league := some ⟨some "L"⟩,
    teams := some ⟨some ⟨some "H"⟩, some ⟨some "W"⟩⟩,
    bookmakers := some [⟨some "BookY",
      some [⟨some "Over/Under",
        some [⟨some "Over 2.5", some "1.8"⟩,
          ⟨some "Draw", some "1.9"⟩]⟩]⟩] }

/-- The single row `ouGame` produces (its "Over 2.5" selection fails the
filter, its "Draw" selection passes it). -/
def ouRow : Row :=
  ⟨"L", "H", "W", "00:00", "BookY", "Over/Under", "Draw", "1.9"⟩

/-- Two textually identical bookmaker blocks offering the same single
"Match Winner" selection. -/
def gameDup : GameObj :=
  { fixture := some ⟨some 0⟩,
    league := some ⟨some "L"⟩,
    teams := some ⟨some ⟨some "H"⟩, some ⟨some "W"⟩⟩,
    bookmakers := some [
      ⟨some "B", some [⟨some "Match Winner", some [⟨some "Home", some "2.0"⟩]⟩]⟩,
      ⟨some "B", some [⟨some "Match Winner", some [⟨some "Home", some "2.0"⟩]⟩]⟩] }

/-- The row each of `gameDup`'s two bookmakers produces. -/
def dupRow : Row :=
  ⟨"L", "H", "W", "00:00", "B", "Match Winner", "Home", "2.0"⟩

/-- A record whose league, teams, market name, selection and odd fields are
all absent where permitted: bet 1 has a market name but a value lacking
both selection and odd, bet 2 lacks its market name but offers a "Draw"
selection. -/
def gameC3 : GameObj :=
  { fixture := some ⟨some 0⟩,
    league := none,
    teams := none,
    bookmakers := some [⟨some "B1",
      some [⟨some "Match Winner", some [⟨none, none⟩]⟩,
        ⟨none, some [⟨some "Draw", none⟩]⟩]⟩] }

/-- A record whose only bookmaker block lacks its `"name"` key while
offering a selection that passes the filter. -/
def gameNoBmName : GameObj :=
  { fixture := some ⟨some 0⟩,
    league := some ⟨some "L"⟩,
    teams := some ⟨some ⟨some "H"⟩, some ⟨some "W"⟩⟩,
    bookmakers := some [⟨none,
      some [⟨some "Match Winner", some [⟨some "Home", some "2.0"⟩]⟩]⟩] }

/-- A record lacking its `"fixture"` key entirely. -/
def noFixGame : GameObj :=
  { fixture := none, league := none, teams := none, bookmakers := none }

/-- A record whose fixture dictionary is present but lacks the
`"timestamp"` key. -/
def gameNoTs : GameObj :=
  { fixture := some ⟨none⟩,
    league := some ⟨some "L"⟩,
    teams := some ⟨some ⟨some "H"⟩, some ⟨some "W"⟩⟩,
    bookmakers := some [⟨some "B",
      some [⟨some "Match Winner", some [⟨some "Home", some "2.0"⟩]⟩]⟩] }

/-- The row `gameNoTs` produces under a zero UTC offset: its time column is
the epoch rendered at 00:00. -/
def rowNoTs : Row :=
  ⟨"L", "H", "W", "00:00", "B", "Match Winner", "Home", "2.0"⟩

/-- The first row `gameC3` produces under a zero UTC offset: league, teams,
selection and odd all defaulted to their placeholders. -/
def rowC3a : Row :=
  ⟨"Desconocida", "Desconocido", "Desconocido", "00:00", "B1",
    "Match Winner", "N/A", "N/A"⟩

/-- The second row `gameC3` produces under a zero UTC offset: the market
name defaulted to its placeholder. -/
def rowC3b : Row :=
  ⟨"Desconocida", "Desconocido", "Desconocido", "00:00", "B1",
    "Desconocido", "Draw", "N/A"⟩

/-! Helper lemmas about `seqRows` and the per-level loop bodies. -/

/-- Destructing a successful `seqRows` step on a nonempty list. -/
theorem seqRows_cons_ok {α : Type} (f : α → Except String (List Row)) (x : α)
    (t : List α) (R : List Row) (h : seqRows f (x :: t) = Except.ok R) :
    ∃ rs rs2, f x = Except.ok rs ∧ seqRows f t = Except.ok rs2 ∧
      R = rs ++ rs2 := by
  simp only [seqRows] at h
  split at h
  · exact Except.noConfusion h
  · next rs hfx =>
    split at h
    · exact Except.noConfusion h
    · next rs2 hrest =>
      injection h with h2
      exact ⟨rs, rs2, hfx, hrest, h2.symm⟩

/-- If every row a step can produce satisfies `p`, so does every row of the
sequenced loop. -/
theorem seqRows_sound {α : Type} (f : α → Except String (List Row))
    (p : Row → Prop)
    (hf : ∀ x rs, f x = Except.ok rs → ∀ r ∈ rs, p r) :
    ∀ (l : List α) (R : List Row),
      seqRows f l = Except.ok R → ∀ r ∈ R, p r := by
  intro l
  induction l with
  | nil =>
    intro R h r hr
    simp only [seqRows] at h
    injection h with h2
    subst h2
    simp at hr
  | cons x t ih =>
    intro R h r hr
    obtain ⟨rs, rs2, hfx, hrest, rfl⟩ := seqRows_cons_ok f x t R h
    rcases List.mem_append.mp hr with h1 | h2
    · exact hf x rs hfx r h1
    · exact ih rs2 hrest r h2

/-- If each step of `f` returns the `p`-filtered rows of the corresponding
step of `g`, the whole `f` loop returns the `p`-filtered rows of the whole
`g` loop. -/
theorem seqRows_filter {α : Type} (f g : α → Except String (List Row))
    (p : Row → Bool)
    (hfg : ∀ x rs, g x = Except.ok rs →
      f x = Except.ok (rs.filter (fun r => p r))) :
    ∀ (l : List α) (A : List Row), seqRows g l = Except.ok A →
      seqRows f l = Except.ok (A.filter (fun r => p r)) := by
  intro l
  induction l with
  | nil =>
    intro A h
    simp only [seqRows] at h
    injection h with h2
    subst h2
    rfl
  | cons x t ih =>
    intro A h
    obtain ⟨rs, rs2, hgx, hrest, rfl⟩ := seqRows_cons_ok g x t A h
    have h1 := hfg x rs hgx
    have h2 := ih rs2 hrest
    simp only [seqRows, h1, h2, List.filter_append]

/-- A loop containing a step that always raises can never return. -/
theorem seqRows_not_ok_of_mem {α : Type} (f : α → Except String (List Row))
    (x : α) (hx : ∀ rs, f x ≠ Except.ok rs) :
    ∀ (l : List α), x ∈ l → ∀ R, seqRows f l ≠ Except.ok R := by
  intro l
  induction l with
  | nil =>
    intro hmem
    simp at hmem
  | cons y t ih =>
    intro hmem R h
    obtain ⟨rs, rs2, hfy, hrest, rfl⟩ := seqRows_cons_ok f y t R h
    rcases List.mem_cons.mp hmem with rfl | hmt
    · exact hx rs hfy
    · exact ih hmt rs2 hrest

/-- Replacing one list element by another on which the step agrees leaves
the sequenced loop's result unchanged. -/
theorem seqRows_congr_mid {α : Type} (f : α → Except String (List Row))
    (x y : α) (hxy : f x = f y) :
    ∀ (pre post : List α),
      seqRows f (pre ++ x :: post) = seqRows f (pre ++ y :: post) := by
  intro pre post
  induction pre with
  | nil => simp only [List.nil_append, seqRows, hxy]
  | cons a t ih => simp only [List.cons_append, seqRows, List.append_eq, ih]

/-- Every row the value step emits carries exactly the strings it was
given: the ambient league, team names and formatted time, the market name,
and the value's own (defaulted) selection and odd. -/
theorem valueRow_fields (bmName : Option String)
    (league home_team away_team match_time market_name : String)
    (v : ValueObj) (rs : List Row)
    (h : valueRow bmName league home_team away_team match_time market_name v
      = Except.ok rs) :
    ∀ r ∈ rs, r.Liga = league ∧ r.Local = home_team ∧
      r.Visitante = away_team ∧ r.Hora = match_time ∧
      r.Mercado = market_name ∧ r.Seleccion = v.value.getD "N/A" ∧
      r.Cuota = v.odd.getD "N/A" := by
  intro r hr
  unfold valueRow at h
  by_cases hp : passes_filter market_name (v.value.getD "N/A") = true
  · rw [if_pos hp] at h
    cases bmName with
    | none => exact Except.noConfusion h
    | some bn =>
      injection h with h2
      subst h2
      simp only [List.mem_singleton] at hr
      subst hr
      exact ⟨rfl, rfl, rfl, rfl, rfl, rfl, rfl⟩
  · rw [if_neg hp] at h
    injection h with h2
    subst h2
    simp at hr

/-- Every row a bookmaker block emits carries the league and team names it
was given. -/
theorem bookmakerRows_fields
    (league home_team away_team match_time : String) (bmk : BookmakerObj)
    (rs : List Row)
    (h : bookmakerRows league home_team away_team match_time bmk =
      Except.ok rs) :
    ∀ r ∈ rs, r.Liga = league ∧ r.Local = home_team ∧
      r.Visitante = away_team :=
  seqRows_sound _ _
    (fun bet rs2 hbet => seqRows_sound _ _
      (fun v rs3 hv r hr =>
        ⟨(valueRow_fields _ _ _ _ _ _ v rs3 hv r hr).1,
         (valueRow_fields _ _ _ _ _ _ v rs3 hv r hr).2.1,
         (valueRow_fields _ _ _ _ _ _ v rs3 hv r hr).2.2.1⟩)
      (bet.values.getD []) rs2 hbet)
    (bmk.bets.getD []) rs h

/-- The filtered value step returns exactly the `rowPass`-filtered rows of
the unfiltered value step. -/
theorem valueRow_eq_filter (bmName : Option String)
    (league home_team away_team match_time market_name : String)
    (v : ValueObj) (rs : List Row)
    (h : valueRowAll bmName league home_team away_team match_time
      market_name v = Except.ok rs) :
    valueRow bmName league home_team away_team match_time market_name v =
      Except.ok (rs.filter (fun r => rowPass r)) := by
  cases bmName with
  | none => exact Except.noConfusion h
  | some bn =>
    injection h with h2
    subst h2
    by_cases hp : passes_filter market_name (v.value.getD "N/A") = true
    · simp [valueRow, hp, List.filter, rowPass]
    · simp [valueRow, hp, List.filter, rowPass]

/-- `betRows` is the `rowPass`-filtered `betRowsAll`. -/
theorem betRows_eq_filter (bmName : Option String)
    (league home_team away_team match_time : String) (bet : BetObj)
    (rs : List Row)
    (h : betRowsAll bmName league home_team away_team match_time bet =
      Except.ok rs) :
    betRows bmName league home_team away_team match_time bet =
      Except.ok (rs.filter (fun r => rowPass r)) :=
  seqRows_filter _ _ _
    (fun v rs2 hv =>
      valueRow_eq_filter bmName league home_team away_team match_time
        (bet.name.getD "Desconocido") v rs2 hv)
    (bet.values.getD []) rs h

/-- `bookmakerRows` is the `rowPass`-filtered `bookmakerRowsAll`. -/
theorem bookmakerRows_eq_filter
    (league home_team away_team match_time : String) (bmk : BookmakerObj)
    (rs : List Row)
    (h : bookmakerRowsAll league home_team away_team match_time bmk =
      Except.ok rs) :
    bookmakerRows league home_team away_team match_time bmk =
      Except.ok (rs.filter (fun r => rowPass r)) :=
  seqRows_filter _ _ _
    (fun bet rs2 hb =>
      betRows_eq_filter bmk.name league home_team away_team match_time
        bet rs2 hb)
    (bmk.bets.getD []) rs h

/-- `gameRows` is the `rowPass`-filtered `gameRowsAll`. -/
theorem gameRows_eq_filter (tz : Int) (game : GameObj) (rs : List Row)
    (h : gameRowsAll tz game = Except.ok rs) :
    gameRows tz game = Except.ok (rs.filter (fun r => rowPass r)) := by
  unfold gameRowsAll at h
  unfold gameRows
  split at h
  · exact Except.noConfusion h
  · next fx hfix =>
    exact seqRows_filter _ _ _
      (fun bmk rs2 hb => bookmakerRows_eq_filter _ _ _ _ bmk rs2 hb)
      (game.bookmakers.getD []) rs h

/-- `analyze_odds` is the `rowPass`-filtered full traversal, in input
traversal order. -/
theorem analyze_eq_filter (tz : Int) (odds : List GameObj) (A : List Row)
    (h : traversalRows tz odds = Except.ok A) :
    analyze_odds tz odds = Except.ok (A.filter (fun r => rowPass r)) :=
  seqRows_filter _ _ _ (fun g rs hg => gameRows_eq_filter tz g rs hg)
    odds A h

/-- Every row the value step emits satisfies the filter predicate. -/
theorem valueRow_pass (bmName : Option String)
    (league home_team away_team match_time market_name : String)
    (v : ValueObj) (rs : List Row)
    (h : valueRow bmName league home_team away_team match_time market_name v
      = Except.ok rs) :
    ∀ r ∈ rs, rowPass r = true := by
  intro r hr
  unfold valueRow at h
  by_cases hp : passes_filter market_name (v.value.getD "N/A") = true
  · rw [if_pos hp] at h
    cases bmName with
    | none => exact Except.noConfusion h
    | some bn =>
      injection h with h2
      subst h2
      simp only [List.mem_singleton] at hr
      subst hr
      simpa [rowPass] using hp
  · rw [if_neg hp] at h
    injection h with h2
    subst h2
    simp at hr

/-- Every row `analyze_odds` emits satisfies the filter predicate. -/
theorem analyze_odds_pass (tz : Int) (odds : List GameObj) (R : List Row)
    (h : analyze_odds tz odds = Except.ok R) :
    ∀ r ∈ R, rowPass r = true :=
  seqRows_sound _ _
    (fun game rs hg => by
      unfold gameRows at hg
      split at hg
      · exact Except.noConfusion hg
      · exact seqRows_sound _ _
          (fun bmk rs2 hb => seqRows_sound _ _
            (fun bet rs3 hbet => seqRows_sound _ _
              (fun v rs4 hv => valueRow_pass _ _ _ _ _ _ v rs4 hv)
              (bet.values.getD []) rs3 hbet)
            (bmk.bets.getD []) rs2 hb)
          (game.bookmakers.getD []) rs hg)
    odds R h

/-- Every row the value step emits carries the formatted kickoff time it
was given. -/
theorem valueRow_hora (bmName : Option String)
    (league home_team away_team match_time market_name : String)
    (v : ValueObj) (rs : List Row)
    (h : valueRow bmName league home_team away_team match_time market_name v
      = Except.ok rs) :
    ∀ r ∈ rs, r.Hora = match_time := by
  intro r hr
  unfold valueRow at h
  by_cases hp : passes_filter market_name (v.value.getD "N/A") = true
  · rw [if_pos hp] at h
    cases bmName with
    | none => exact Except.noConfusion h
    | some bn =>
      injection h with h2
      subst h2
      simp only [List.mem_singleton] at hr
      subst hr
      rfl
  · rw [if_neg hp] at h
    injection h with h2
    subst h2
    simp at hr

/-- Every row a bookmaker block emits carries the formatted kickoff time it
was given. -/
theorem bookmakerRows_hora
    (league home_team away_team match_time : String) (bmk : BookmakerObj)
    (rs : List Row)
    (h : bookmakerRows league home_team away_team match_time bmk =
      Except.ok rs) :
    ∀ r ∈ rs, r.Hora = match_time :=
  seqRows_sound _ _
    (fun bet rs2 hbet => seqRows_sound _ _
      (fun v rs3 hv => valueRow_hora _ _ _ _ _ _ v rs3 hv)
      (bet.values.getD []) rs2 hbet)
    (bmk.bets.getD []) rs h

/-- Every row a game record emits renders the hour of
`fixture.get("timestamp", 0)` in the host timezone. -/
theorem gameRows_hora (tz : Int) (game : GameObj) (fx : FixtureObj)
    (hfix : game.fixture = some fx) (R : List Row)
    (h : gameRows tz game = Except.ok R) :
    ∀ r ∈ R, r.Hora = fmtLocalHM tz (fx.timestamp.getD 0) := by
  unfold gameRows at h
  rw [hfix] at h
  exact seqRows_sound _ _
    (fun bmk rs hb => bookmakerRows_hora _ _ _ _ bmk rs hb)
    (game.bookmakers.getD []) R h

/-- Every row `analyze_odds` emits renders some timestamp in the host
timezone. -/
theorem analyze_odds_hora (tz : Int) (odds : List GameObj) (R : List Row)
    (h : analyze_odds tz odds = Except.ok R) :
    ∀ r ∈ R, ∃ t : Int, r.Hora = fmtLocalHM tz t := by
  refine seqRows_sound _ _ ?_ odds R h
  intro game rs hg r hr
  unfold gameRows at hg
  split at hg
  · exact Except.noConfusion hg
  · next fx hfix =>
    exact ⟨fx.timestamp.getD 0,
      seqRows_sound _ _
        (fun bmk rs2 hb => bookmakerRows_hora _ _ _ _ bmk rs2 hb)
        (game.bookmakers.getD []) rs hg r hr⟩

/-- `fmtLocalHM` always renders a well-formed hour:minute string. -/
theorem fmtLocalHM_wellformed (tz t : Int) :
    ∃ hh mm : Nat, hh < 24 ∧ mm < 60 ∧
      fmtLocalHM tz t = pad2 hh ++ ":" ++ pad2 mm := by
  refine ⟨((t + tz).emod 86400).toNat / 3600,
    ((t + tz).emod 86400).toNat % 3600 / 60, ?_, ?_, rfl⟩
  · have h1 : 0 ≤ (t + tz).emod 86400 := Int.emod_nonneg _ (by norm_num)
    have h2 : (t + tz).emod 86400 < 86400 := Int.emod_lt_of_pos _ (by norm_num)
    omega
  · omega

/-- C6: on the spec's end-to-end payload, `analyze_odds` outputs exactly
three rows carrying league "Test League", home "A", away "B", hour
"15:30", bookmaker "BookX", market "Match Winner", and the three
selection/odd pairs in input order. -/
theorem C6_end_to_end :
    analyze_odds 0 [c6game] = Except.ok
      [⟨"Test League", "A", "B", "15:30", "BookX", "Match Winner", "Home", "1.5"⟩,
       ⟨"Test League", "A", "B", "15:30", "BookX", "Match Winner", "Draw", "3.2"⟩,
       ⟨"Test League", "A", "B", "15:30", "BookX", "Match Winner", "Away", "2.1"⟩] := by
  rfl

/-- C3 counterexample: the claim says a record with an absent bookmaker
field still produces its rows with a placeholder substituted.  In the code
the bookmaker's name is read with a raw subscript, so on this concrete
record — one nameless bookmaker offering a "Match Winner" selection — the
operation raises `KeyError` and produces no rows at all. -/
theorem C3_missing_bookmaker_name_raises :
    analyze_odds 0 [gameNoBmName] = Except.error "KeyError: name" := by
  rfl

/-- C3 amended: for EVERY record, an absent league, home-team, away-team,
market, selection or odd field yields rows carrying the corresponding
literal placeholder ("Desconocida", "Desconocido", "N/A") — stated both as
universal per-field soundness (conjuncts 1-6: every row emitted from a
record missing the field carries the placeholder) and as universal
substitution invariance (conjuncts 7-10: inside any input, a record
missing the field produces exactly the output of the same record carrying
the placeholder literal, so the missing field by itself never skips a row
or raises).  Only the bookmaker name has no such default
(see `C3_missing_bookmaker_name_raises`).  The final conjunct evaluates a
concrete all-defaults record. -/
theorem C3_placeholders_amended :
    (∀ (tz : Int) (g : GameObj) (R : List Row),
        g.league.bind NameObj.name = none →
        gameRows tz g = Except.ok R → ∀ r ∈ R, r.Liga = "Desconocida") ∧
      (∀ (tz : Int) (g : GameObj) (R : List Row),
        (g.teams.bind TeamsObj.home).bind NameObj.name = none →
        gameRows tz g = Except.ok R → ∀ r ∈ R, r.Local = "Desconocido") ∧
      (∀ (tz : Int) (g : GameObj) (R : List Row),
        (g.teams.bind TeamsObj.away).bind NameObj.name = none →
        gameRows tz g = Except.ok R → ∀ r ∈ R, r.Visitante = "Desconocido") ∧
      (∀ (bmName : Option String)
        (league home_team away_team match_time : String) (bet : BetObj)
        (R : List Row),
        bet.name = none →
        betRows bmName league home_team away_team match_time bet =
          Except.ok R →
        ∀ r ∈ R, r.Mercado = "Desconocido") ∧
      (∀ (bmName : Option String)
        (league home_team away_team match_time market_name : String)
        (v : ValueObj) (R : List Row),
        v.value = none →
        valueRow bmName league home_team away_team match_time market_name v
          = Except.ok R →
        ∀ r ∈ R, r.Seleccion = "N/A") ∧
      (∀ (bmName : Option String)
        (league home_team away_team match_time market_name : String)
        (v : ValueObj) (R : List Row),
        v.odd = none →
        valueRow bmName league home_team away_team match_time market_name v
          = Except.ok R →
        ∀ r ∈ R, r.Cuota = "N/A") ∧
      (∀ (tz : Int) (pre post : List GameObj) (g : GameObj),
        analyze_odds tz (pre ++ { g with league := none } :: post) =
          analyze_odds tz
            (pre ++ { g with league := some ⟨some "Desconocida"⟩ } :: post)) ∧
      (∀ (tz : Int) (pre post : List GameObj) (g : GameObj),
        analyze_odds tz (pre ++ { g with teams := none } :: post) =
          analyze_odds tz
            (pre ++ { g with teams := some ⟨some ⟨some "Desconocido"⟩,
              some ⟨some "Desconocido"⟩⟩ } :: post)) ∧
      (∀ (bmName : Option String)
        (league home_team away_team match_time : String) (bet : BetObj),
        betRows bmName league home_team away_team match_time
            { bet with name := none } =
          betRows bmName league home_team away_team match_time
            { bet with name := some "Desconocido" }) ∧
      (∀ (bmName : Option String)
        (league home_team away_team match_time market_name : String)
        (v : ValueObj),
        valueRow bmName league home_team away_team match_time market_name
            { v with value := none } =
          valueRow bmName league home_team away_team match_time market_name
            { v with value := some "N/A" } ∧
        valueRow bmName league home_team away_team match_time market_name
            { v with odd := none } =
          valueRow bmName league home_team away_team match_time market_name
            { v with odd := some "N/A" }) ∧
      (∀ tz : Int, analyze_odds tz [gameC3] = Except.ok
        [⟨"Desconocida", "Desconocido", "Desconocido", fmtLocalHM tz 0,
          "B1", "Match Winner", "N/A", "N/A"⟩,
         ⟨"Desconocida", "Desconocido", "Desconocido", fmtLocalHM tz 0,
          "B1", "Desconocido", "Draw", "N/A"⟩]) := by
  refine ⟨?_, ?_, ?_, ?_, ?_, ?_, ?_, ?_, ?_, ?_, fun tz => by rfl⟩
  · intro tz g R hl h r hr
    unfold gameRows at h
    split at h
    · exact Except.noConfusion h
    · next fx hfix =>
      have hfields := seqRows_sound _
        (fun r => r.Liga = (g.league.bind NameObj.name).getD "Desconocida")
        (fun bmk rs2 hb r2 hr2 =>
          (bookmakerRows_fields _ _ _ _ bmk rs2 hb r2 hr2).1)
        (g.bookmakers.getD []) R h r hr
      rw [hl] at hfields
      exact hfields
  · intro tz g R hl h r hr
    unfold gameRows at h
    split at h
    · exact Except.noConfusion h
    · next fx hfix =>
      have hfields := seqRows_sound _
        (fun r => r.Local =
          ((g.teams.bind TeamsObj.home).bind NameObj.name).getD "Desconocido")
        (fun bmk rs2 hb r2 hr2 =>
          (bookmakerRows_fields _ _ _ _ bmk rs2 hb r2 hr2).2.1)
        (g.bookmakers.getD []) R h r hr
      rw [hl] at hfields
      exact hfields
  · intro tz g R hl h r hr
    unfold gameRows at h
    split at h
    · exact Except.noConfusion h
    · next fx hfix =>
      have hfields := seqRows_sound _
        (fun r => r.Visitante =
          ((g.teams.bind TeamsObj.away).bind NameObj.name).getD "Desconocido")
        (fun bmk rs2 hb r2 hr2 =>
          (bookmakerRows_fields _ _ _ _ bmk rs2 hb r2 hr2).2.2)
        (g.bookmakers.getD []) R h r hr
      rw [hl] at hfields
      exact hfields
  · intro bmName league home_team away_team match_time bet R hname h r hr
    unfold betRows at h
    have hfields := seqRows_sound _
      (fun r => r.Mercado = bet.name.getD "Desconocido")
      (fun v rs2 hv r2 hr2 =>
        (valueRow_fields _ _ _ _ _ _ v rs2 hv r2 hr2).2.2.2.2.1)
      (bet.values.getD []) R h r hr
    rw [hname] at hfields
    exact hfields
  · intro bmName league home_team away_team match_time market_name v R hv h r hr
    have hfields :=
      (valueRow_fields _ _ _ _ _ _ v R h r hr).2.2.2.2.2.1
    rw [hv] at hfields
    exact hfields
  · intro bmName league home_team away_team match_time market_name v R hv h r hr
    have hfields :=
      (valueRow_fields _ _ _ _ _ _ v R h r hr).2.2.2.2.2.2
    rw [hv] at hfields
    exact hfields
  · intro tz pre post g
    exact seqRows_congr_mid (gameRows tz) _ _ (by rfl) pre post
  · intro tz pre post g
    exact seqRows_congr_mid (gameRows tz) _ _ (by rfl) pre post
  · intro bmName league home_team away_team match_time bet
    rfl
  · intro bmName league home_team away_team match_time market_name v
    exact ⟨rfl, rfl⟩

/-- Witness for `C3_placeholders_amended` at concrete inputs: the rows of
the all-defaults record `gameC3` carry every placeholder. -/
theorem C3_placeholders_amended_witness :
    rowC3a.Liga = "Desconocida" ∧ rowC3a.Local = "Desconocido" ∧
      rowC3a.Visitante = "Desconocido" ∧ rowC3b.Mercado = "Desconocido" ∧
      rowC3a.Seleccion = "N/A" ∧ rowC3a.Cuota = "N/A" :=
  ⟨C3_placeholders_amended.1 0 gameC3 [rowC3a, rowC3b] rfl (by rfl)
      rowC3a (by simp),
    C3_placeholders_amended.2.1 0 gameC3 [rowC3a, rowC3b] rfl (by rfl)
      rowC3a (by simp),
    C3_placeholders_amended.2.2.1 0 gameC3 [rowC3a, rowC3b] rfl (by rfl)
      rowC3a (by simp),
    C3_placeholders_amended.2.2.2.1 (some "B1") "Desconocida" "Desconocido"
      "Desconocido" "00:00" ⟨none, some [⟨some "Draw", none⟩]⟩ [rowC3b]
      rfl (by rfl) rowC3b (by simp),
    C3_placeholders_amended.2.2.2.2.1 (some "B1") "Desconocida"
      "Desconocido" "Desconocido" "00:00" "Match Winner" ⟨none, none⟩
      [rowC3a] rfl (by rfl) rowC3a (by simp),
    C3_placeholders_amended.2.2.2.2.2.1 (some "B1") "Desconocida"
      "Desconocido" "Desconocido" "00:00" "Match Winner" ⟨none, none⟩
      [rowC3a] rfl (by rfl) rowC3a (by simp)⟩

/-- C4 counterexample: the claim says a network failure also results in an
empty sequence with no exception crossing the operation's boundary.  The
fetchers do not wrap `requests.get` in any try/except, so on the concrete
outcome "the transport raised" both operations propagate the exception
instead of returning an empty list. -/
theorem C4_network_failure_propagates :
    get_matches (FetchOutcome.netError : FetchOutcome Nat) =
        Except.error "requests.exceptions.ConnectionError" ∧
      get_odds (FetchOutcome.netError : FetchOutcome GameObj) =
        Except.error "requests.exceptions.ConnectionError" :=
  ⟨rfl, rfl⟩

/-- C4 amended: any non-success HTTP status, and a success response whose
body lacks the "response" container field, yield an empty sequence from
both fetchers; a network failure, by contrast, propagates as an exception
(see `C4_network_failure_propagates`). -/
theorem C4_degradation_amended (α : Type) (status : Nat)
    (body : Option (List α)) (h : status ≠ 200) :
    get_matches (FetchOutcome.response status body) = Except.ok [] ∧
      get_odds (FetchOutcome.response status body) = Except.ok [] ∧
      get_matches (FetchOutcome.response 200 (none : Option (List α))) =
        Except.ok [] ∧
      get_odds (FetchOutcome.response 200 (none : Option (List α))) =
        Except.ok [] := by
  refine ⟨?_, ?_, rfl, rfl⟩ <;> simp [get_matches, get_odds, h]

/-- Witness for `C4_degradation_amended`: a concrete 500 response with no
body field. -/
theorem C4_degradation_amended_witness :
    get_matches (FetchOutcome.response 500 (none : Option (List Nat))) =
        Except.ok [] ∧
      get_odds (FetchOutcome.response 500 (none : Option (List Nat))) =
        Except.ok [] ∧
      get_matches (FetchOutcome.response 200 (none : Option (List Nat))) =
        Except.ok [] ∧
      get_odds (FetchOutcome.response 200 (none : Option (List Nat))) =
        Except.ok [] :=
  C4_degradation_amended Nat 500 none (by decide)

/-- C8 counterexample: the claim says no hidden state influences the
result of `analyze_odds`.  The kickoff-time column is rendered with
`datetime.fromtimestamp`, which consults the host machine's local
timezone — ambient state that is not part of the input: the same raw odds
record formatted under UTC offset 0 and under offset +3600 yields
different output ("00:00" versus "01:00" in the Hora column). -/
theorem C8_timezone_dependence :
    analyze_odds 0 [gameDup] ≠ analyze_odds 3600 [gameDup] := by
  intro h
  have h0 : analyze_odds 0 [gameDup] = Except.ok [dupRow, dupRow] := rfl
  have h1 : analyze_odds 3600 [gameDup] = Except.ok
      [⟨"L", "H", "W", "01:00", "B", "Match Winner", "Home", "2.0"⟩,
       ⟨"L", "H", "W", "01:00", "B", "Match Winner", "Home", "2.0"⟩] := rfl
  rw [h0, h1] at h
  simp [dupRow] at h

/-- C1: the claim asserts that `get_api_reset_time` has no error conditions
and rolls a candidate hour of 24 into hour 0 of the next day.  The code
instead passes 24 straight to the `datetime` constructor: at the concrete
UTC instant 2026-10-12T16:00:00Z (epoch 1791820800, current hour 16) the
candidate hour is `(16 / 8 + 1) * 8 = 24` and the call raises `ValueError`
instead of returning any timestamp.  The same happens at every instant
whose UTC hour is 16..23. -/
theorem C1_reset_time_valueerror :
    get_api_reset_time 1791820800 =
      Except.error "ValueError: hour must be in 0..23" := by
  rfl

/-- C5 counterexample: the claim says the value reported by
`get_remaining_time` is never negative (clamped to zero when the boundary
is non-future).  The code performs a bare subtraction with no clamp.
Concrete scenario: the cached reset boundary is computed at 07:59:00 UTC of
day 0 (epoch second 28740, boundary 08:00:00 = 28800); the query runs 360
seconds later at 08:05:00 (epoch second 29100), still inside the
600-second cache TTL, and the reported remaining time is -300 seconds. -/
theorem C5_negative_remaining :
    get_remaining_time 28740 29100 = Except.ok (-300) ∧
      (-300 : Int) < 0 ∧ 29100 - 28740 ≤ 600 :=
  ⟨by rfl, by decide, by decide⟩

/-- C5 amended: `get_remaining_time` returns the raw signed difference
`reset - now` with no clamping whatsoever; whenever the (possibly cached)
reset computation succeeds, the reported value is exactly that difference,
which is negative as soon as the cached boundary lies in the past. -/
theorem C5_no_clamp_amended (cached_now now reset : Nat)
    (h : get_api_reset_time cached_now = Except.ok reset) :
    get_remaining_time cached_now now = Except.ok ((reset : Int) - now) := by
  unfold get_remaining_time
  rw [h]

/-- Witness for `C5_no_clamp_amended` at a concrete input: at epoch second
0 the reset boundary is 28800 (08:00:00), and querying 100 seconds later
reports 28700 seconds remaining. -/
theorem C5_no_clamp_amended_witness :
    get_remaining_time 0 100 = Except.ok ((28800 : Int) - 100) :=
  C5_no_clamp_amended 0 100 28800 (by rfl)

/-- C2: a traversed (bookmaker, market, selection) triple yields an output
row of `analyze_odds` if and only if the market name is exactly
"Match Winner" or "Draw No Bet" or the selection label is exactly "Draw":
every emitted row satisfies the disjunction, membership in the output is
equivalent to membership in the unfiltered traversal plus the disjunction,
and a "Draw" selection under the market "Over/Under" still produces
exactly one row. -/
theorem C2_filter_iff :
    (∀ (tz : Int) (odds : List GameObj) (R : List Row),
        analyze_odds tz odds = Except.ok R →
        ∀ r ∈ R, passes_filter r.Mercado r.Seleccion = true) ∧
      (∀ (tz : Int) (odds : List GameObj) (A R : List Row),
        traversalRows tz odds = Except.ok A →
        analyze_odds tz odds = Except.ok R →
        ∀ r : Row, r ∈ R ↔ r ∈ A ∧ passes_filter r.Mercado r.Seleccion = true) ∧
      analyze_odds 0 [ouGame] = Except.ok [ouRow] := by
  refine ⟨?_, ?_, by rfl⟩
  · intro tz odds R h r hr
    exact analyze_odds_pass tz odds R h r hr
  · intro tz odds A R hA hR r
    have hchar := analyze_eq_filter tz odds A hA
    rw [hR] at hchar
    injection hchar with h2
    subst h2
    simp [List.mem_filter, rowPass]

/-- Witness for `C2_filter_iff`: the single row produced by the
"Over/Under"-with-"Draw" payload satisfies the filter disjunction. -/
theorem C2_filter_iff_witness :
    passes_filter ouRow.Mercado ouRow.Seleccion = true :=
  C2_filter_iff.1 0 [ouGame] [ouRow] (by rfl) ouRow (by simp)

/-- C7: the output of `analyze_odds` is exactly the order-preserving,
duplicate-preserving filter of the full input-order traversal (fixture →
bookmaker → market → selection) — no sorting, no deduplication — and two
textually identical bookmaker blocks yield two identical rows. -/
theorem C7_traversal_order :
    (∀ (tz : Int) (odds : List GameObj) (A : List Row),
        traversalRows tz odds = Except.ok A →
        analyze_odds tz odds = Except.ok (A.filter (fun r => rowPass r))) ∧
      analyze_odds 0 [gameDup] = Except.ok [dupRow, dupRow] :=
  ⟨fun tz odds A h => analyze_eq_filter tz odds A h, by rfl⟩

/-- Witness for `C7_traversal_order` at the duplicate-bookmaker payload. -/
theorem C7_traversal_order_witness :
    analyze_odds 0 [gameDup] =
      Except.ok (List.filter (fun r => rowPass r) [dupRow, dupRow]) :=
  C7_traversal_order.1 0 [gameDup] [dupRow, dupRow] (by rfl)

/-- C8 amended: `analyze_odds` is deterministic given its input and the
host machine's timezone: with the ambient timezone fixed, equal raw odds
sequences always yield equal output (calling it twice returns identical
results); the host timezone itself, however, is ambient state that does
influence the rendered time column (see `C8_timezone_dependence`). -/
theorem C8_deterministic_amended (tz : Int)
    (odds_data odds_data2 : List GameObj) (h : odds_data = odds_data2) :
    analyze_odds tz odds_data = analyze_odds tz odds_data2 := by
  rw [h]

/-- Witness for `C8_deterministic_amended` at a concrete payload. -/
theorem C8_deterministic_amended_witness :
    analyze_odds 0 [gameDup] = analyze_odds 0 [gameDup] :=
  C8_deterministic_amended 0 [gameDup] [gameDup] rfl

/-- C9: `analyze_odds` is total only when every record carries a fixture
dictionary: an input containing any record whose `"fixture"` key is absent
makes the whole operation raise (`None.get` attribute access) rather than
substitute a placeholder or skip the record, so no row list is ever
returned. -/
theorem C9_fixture_precondition (tz : Int) (odds : List GameObj)
    (g : GameObj) (hmem : g ∈ odds) (hfix : g.fixture = none) :
    ∀ R : List Row, analyze_odds tz odds ≠ Except.ok R := by
  have hx : ∀ rs, gameRows tz g ≠ Except.ok rs := by
    intro rs hg
    unfold gameRows at hg
    rw [hfix] at hg
    exact Except.noConfusion hg
  exact seqRows_not_ok_of_mem (gameRows tz) g hx odds hmem

/-- Witness for `C9_fixture_precondition`: a concrete fixtureless record. -/
theorem C9_fixture_precondition_witness :
    analyze_odds 0 [noFixGame] ≠ Except.ok [] :=
  C9_fixture_precondition 0 [noFixGame] noFixGame (by simp) rfl []

/-- C10: a fixture dictionary lacking its `"timestamp"` key defaults the
timestamp to 0, so every row of that fixture renders the Unix epoch in the
host machine's local timezone as its Hora column rather than a
placeholder; and every row `analyze_odds` ever emits carries a well-formed
zero-padded hour:minute string. -/
theorem C10_epoch_time_rendering :
    (∀ (tz : Int) (game : GameObj) (R : List Row),
        game.fixture = some ⟨none⟩ → gameRows tz game = Except.ok R →
        ∀ r ∈ R, r.Hora = fmtLocalHM tz 0) ∧
      (∀ (tz : Int) (odds : List GameObj) (R : List Row),
        analyze_odds tz odds = Except.ok R →
        ∀ r ∈ R, ∃ hh mm : Nat, hh < 24 ∧ mm < 60 ∧
          r.Hora = pad2 hh ++ ":" ++ pad2 mm) := by
  constructor
  · intro tz game R hfix h r hr
    exact gameRows_hora tz game ⟨none⟩ hfix R h r hr
  · intro tz odds R h r hr
    obtain ⟨t, ht⟩ := analyze_odds_hora tz odds R h r hr
    obtain ⟨hh, mm, h1, h2, h3⟩ := fmtLocalHM_wellformed tz t
    exact ⟨hh, mm, h1, h2, ht.trans h3⟩

/-- Witness for `C10_epoch_time_rendering` at a concrete record whose
fixture has no timestamp. -/
theorem C10_epoch_time_rendering_witness :
    rowNoTs.Hora = fmtLocalHM 0 0 ∧
      ∃ hh mm : Nat, hh < 24 ∧ mm < 60 ∧
        rowNoTs.Hora = pad2 hh ++ ":" ++ pad2 mm :=
  ⟨C10_epoch_time_rendering.1 0 gameNoTs [rowNoTs] rfl (by rfl) rowNoTs
      (by simp),
    C10_epoch_time_rendering.2 0 [gameNoTs] [rowNoTs] (by rfl) rowNoTs
      (by simp)⟩

end Betsmart
